/-
Verification of core logic of the openai_chatbot repository.

The development shallowly embeds three pieces of the code base:
  * the phase state machine of `backend/domain/entities/story.py`,
  * the model-fallback cascade and message filtering of `api/ai_fallback.py`,
  * the snippet curation pipeline of `backend/app/services/snippets.py`.

Python strings are modelled as `String`/`List Char` (sequences of code
points, which is what Python's `len` and slicing operate on); database
tables are modelled as Lean lists of records; the external AI provider is
modelled as an explicit oracle function passed to the embedded operations.
-/
import Mathlib

deriving instance DecidableEq for Except

namespace StoryEnt

/-! ## Phase state machine (backend/domain/entities/story.py) -/

/-- Interview phases in chronological order (`class Phase`). -/
inductive Phase where
  | GREETING
  | AGE_SELECTION
  | FAMILY_HISTORY
  | CHILDHOOD
  | ADOLESCENCE
  | EARLY_ADULTHOOD
  | MIDLIFE
  | PRESENT
  | SYNTHESIS
deriving DecidableEq, Repr

/-- User age ranges (`class AgeRange`). -/
inductive AgeRange where
  | UNDER_18
  | AGE_18_30
  | AGE_31_45
  | AGE_46_60
  | AGE_61_PLUS
deriving DecidableEq, Repr

/-- Story lifecycle status (`class StoryStatus`). -/
inductive StoryStatus where
  | DRAFT
  | IN_PROGRESS
  | COMPLETED
  | ARCHIVED
deriving DecidableEq, Repr

open Phase AgeRange

/-- The full phase list, in declaration order (Python `list(Phase)`). -/
def allPhases : List Phase :=
  [GREETING, AGE_SELECTION, FAMILY_HISTORY, CHILDHOOD, ADOLESCENCE,
   EARLY_ADULTHOOD, MIDLIFE, PRESENT, SYNTHESIS]

/-- `AGE_PHASE_MAPPING` from story.py. -/
def AGE_PHASE_MAPPING : AgeRange → List Phase
  | UNDER_18 =>
      [GREETING, AGE_SELECTION, FAMILY_HISTORY, CHILDHOOD, ADOLESCENCE,
       PRESENT, SYNTHESIS]
  | AGE_18_30 =>
      [GREETING, AGE_SELECTION, FAMILY_HISTORY, CHILDHOOD, ADOLESCENCE,
       EARLY_ADULTHOOD, PRESENT, SYNTHESIS]
  | AGE_31_45 =>
      [GREETING, AGE_SELECTION, FAMILY_HISTORY, CHILDHOOD, ADOLESCENCE,
       EARLY_ADULTHOOD, MIDLIFE, PRESENT, SYNTHESIS]
  | AGE_46_60 =>
      [GREETING, AGE_SELECTION, FAMILY_HISTORY, CHILDHOOD, ADOLESCENCE,
       EARLY_ADULTHOOD, MIDLIFE, PRESENT, SYNTHESIS]
  | AGE_61_PLUS =>
      [GREETING, AGE_SELECTION, FAMILY_HISTORY, CHILDHOOD, ADOLESCENCE,
       EARLY_ADULTHOOD, MIDLIFE, PRESENT, SYNTHESIS]

/-- The fields of the `Story` dataclass that the phase-transition logic
reads or writes (id, user id, title and timestamps never influence it). -/
structure Story where
  current_phase : Phase
  age_range : Option AgeRange
  status : StoryStatus
deriving DecidableEq, Repr

/-- `Story.available_phases`: full list when age unset, mapped subset
otherwise (the Python `.get` default never fires: the mapping is total). -/
def available_phases (s : Story) : List Phase :=
  match s.age_range with
  | none => allPhases
  | some a => AGE_PHASE_MAPPING a

/-- `Story.phase_index`: index of the current phase in the available list,
`0` when the current phase is not in the list. -/
def phase_index (s : Story) : Nat :=
  let phases := available_phases s
  if s.current_phase ∈ phases then phases.indexOf s.current_phase else 0

/-- `Story.can_advance_to`. -/
def can_advance_to (s : Story) (target_phase : Phase) : Bool :=
  let available := available_phases s
  if target_phase ∉ available then false
  else
    let current_idx := phase_index s
    let target_idx := available.indexOf target_phase
    if target_idx < current_idx then false
    else if 1 < target_idx ∧ s.age_range = none then false
    else true

/-- `Story.advance_phase`; the Python method mutates `self` and returns the
new phase, or raises `ValueError`.  Modelled as `Except`: `.ok` carries the
mutated story, `.error` the exception message. -/
def advance_phase (s : Story) : Except String Story :=
  let phases := available_phases s
  let current_idx := phase_index s
  if phases.length - 1 ≤ current_idx then
    .error "Already at final phase"
  else
    let next_phase := phases.getD (current_idx + 1) Phase.GREETING
    if ¬ can_advance_to s next_phase then
      .error "Cannot advance"
    else
      let s1 : Story := { s with current_phase := next_phase }
      let s2 : Story :=
        if s1.status = StoryStatus.DRAFT ∧ 0 < current_idx then
          { s1 with status := StoryStatus.IN_PROGRESS }
        else s1
      let s3 : Story :=
        if next_phase = Phase.SYNTHESIS then
          { s2 with status := StoryStatus.COMPLETED }
        else s2
      .ok s3

/-- One call of `advance_phase` on a live entity: a raised `ValueError`
leaves the entity unchanged. -/
def advance_step (s : Story) : Story :=
  match advance_phase s with
  | .ok s1 => s1
  | .error _ => s

end StoryEnt

namespace AiFb

/-! ## Message filtering and model fallback (api/ai_fallback.py) -/

/-- A conversation message: the `{"role": ..., "content": ...}` dicts that
`filter_messages_by_phases` and `run_gemini_fallback` consume. -/
structure ChatMsg where
  role : String
  content : String
deriving DecidableEq, Repr

/-- The character class matched by Python's `\s` on ASCII text. -/
def isPySpace (c : Char) : Bool :=
  c = ' ' ∨ c = '\t' ∨ c = '\n' ∨ c = '\r' ∨ c = '\x0b' ∨ c = '\x0c'

/-- The character class `[A-Z_]` under `re.IGNORECASE`. -/
def isPhaseChar (c : Char) : Bool :=
  c.isUpper ∨ c.isLower ∨ c = '_'

/-- Case-insensitively consume a (lowercase) literal from the front of a
character list; return the rest on success. -/
def matchLitCI : List Char → List Char → Option (List Char)
  | [], s => some s
  | _ :: _, [] => none
  | l :: ls, c :: cs => if c.toLower = l then matchLitCI ls cs else none

/-- The literal part of the transition-marker regex
`\[Moving to next phase:\s*([A-Z_]+)\]`, lowered for the CI comparison. -/
def markerLit : List Char := "[moving to next phase:".toList

/-- Match the marker regex at the start of `s`, returning the capture group.
After the literal, `\s*` and `([A-Z_]+)` are maximal munches: the three
character classes (whitespace, `[A-Za-z_]`, `]`) are pairwise disjoint, so
the regex engine's backtracking never produces a different match. -/
def matchMarkerAt (s : List Char) : Option (List Char) :=
  match matchLitCI markerLit s with
  | none => none
  | some s1 =>
    let s2 := s1.dropWhile isPySpace
    let grp := s2.takeWhile isPhaseChar
    match grp, s2.dropWhile isPhaseChar with
    | [], _ => none
    | _ :: _, ']' :: _ => some grp
    | _ :: _, _ => none

/-- `re.search` for the marker pattern: try every start position, left to
right, and return the first capture group found. -/
def searchMarker : List Char → Option (List Char)
  | [] => none
  | c :: t =>
    match matchMarkerAt (c :: t) with
    | some grp => some grp
    | none => searchMarker t

/-- The `for msg in messages` loop of `filter_messages_by_phases`:
`current` tracks `current_phase` (initially `None`). -/
def filterLoop (normalized : List String) (current : Option String) :
    List ChatMsg → List ChatMsg
  | [] => []
  | m :: rest =>
    match searchMarker m.content.toList with
    | some grp =>
        filterLoop normalized (some (String.mk (grp.map Char.toUpper))) rest
    | none =>
      match current with
      | some p =>
        if p ≠ "" ∧ p ∈ normalized then
          { role := m.role, content := m.content } :: filterLoop normalized (some p) rest
        else
          filterLoop normalized (some p) rest
      | none => filterLoop normalized none rest

/-- `filter_messages_by_phases`.  A `None` messages argument (modelled as
`Option.none`) raises `TypeError`; the `isinstance` check is enforced by
typing and has no counterpart here. -/
def filter_messages_by_phases (messages : Option (List ChatMsg))
    (phases : List String) : Except String (List ChatMsg) :=
  match messages with
  | none => .error "messages cannot be None"
  | some msgs =>
    if msgs = [] then .ok []
    else if phases = [] then .ok []
    else
      let normalized := phases.map (fun p => String.mk (p.toList.map Char.toUpper))
      .ok (filterLoop normalized none msgs)

/-- Outcome of invoking one Gemini model (the `chat.send_message` call):
either a response text or a raised exception's message. -/
inductive GenOutcome where
  | ok (text : String)
  | err (msg : String)
deriving DecidableEq, Repr

/-- The dict returned by `run_gemini_fallback`. -/
structure FbResult where
  success : Bool
  content : String
  model : Option String
  attempts : Nat
  error : Option String
deriving DecidableEq, Repr

/-- The rate-limit classification inside the `except` block:
`any(indicator in error_message.lower() for indicator in [...])`. -/
def hasSub (needle : List Char) : List Char → Bool
  | [] => needle.isEmpty
  | c :: t => needle.isPrefixOf (c :: t) || hasSub needle t

/-- `is_rate_limit` from `run_gemini_fallback`. -/
def isRateLimitError (msg : String) : Bool :=
  let low := msg.toList.map Char.toLower
  ["429", "resource_exhausted", "rate limit", "quota"].any
    (fun indicator => hasSub indicator.toList low)

/-- The default model cascade of `api/ai_fallback.py::get_model_cascade`
(the `GEMINI_MODELS` environment override is modelled by passing an
explicit model list to `run_gemini_fallback`). -/
def get_model_cascade : List String :=
  ["gemini-2.5-flash", "gemini-2.5-flash-lite", "gemini-2.0-flash",
   "gemini-2.0-flash-lite", "gemini-2.5-flash-preview",
   "gemini-2.5-flash-lite-preview"]

/-- The `for attempt_idx, model_name in enumerate(model_cascade)` loop.
`invoke` abstracts one provider call for a given model name; `total` is
`len(model_cascade)` and `idx` the current `attempt_idx`.  Besides the
result dict, the returned list records which models were invoked, in
order. -/
def run_cascade (invoke : String → GenOutcome) (total : Nat) :
    List String → Nat → FbResult × List String
  | [], _ =>
      ({ success := false, content := "", model := none, attempts := total,
         error := some "Failed to generate response with any model" }, [])
  | model_name :: rest, idx =>
    match invoke model_name with
    | .ok text =>
        ({ success := true, content := text, model := some model_name,
           attempts := idx + 1, error := none }, [model_name])
    | .err msg =>
      if isRateLimitError msg then
        if idx = total - 1 then
          ({ success := false, content := "", model := none, attempts := total,
             error := some ("All " ++ toString total ++ " models exhausted rate limits") },
           [model_name])
        else
          let r := run_cascade invoke total rest (idx + 1)
          (r.1, model_name :: r.2)
      else
        ({ success := false, content := "", model := none, attempts := idx + 1,
           error := some ("Error with " ++ model_name ++ ": " ++ msg) },
         [model_name])

/-- `run_gemini_fallback`.  `configure_gemini` and the per-model request
assembly are provider externalities folded into `invoke`; the request sent
is the same for every attempt, so an attempt's outcome depends only on the
model name. -/
def run_gemini_fallback (invoke : String → GenOutcome)
    (messages : List ChatMsg) (models : Option (List String)) :
    Except String (FbResult × List String) :=
  if messages = [] then .error "Messages list cannot be empty"
  else
    let model_cascade :=
      match models with
      | some l => if l = [] then get_model_cascade else l
      | none => get_model_cascade
    if model_cascade = [] then .error "No models available in cascade"
    else .ok (run_cascade invoke model_cascade.length model_cascade 0)

end AiFb

namespace SnipSvc

/-! ## Snippet curation service (backend/app/services/snippets.py) -/

/-- Python `str.strip()` on ASCII text. -/
def pyStrip (s : List Char) : List Char :=
  ((s.dropWhile AiFb.isPySpace).reverse.dropWhile AiFb.isPySpace).reverse

/-- One element of `parsed["snippets"]` inside `_parse_response`: either
not a dict (skipped) or a dict whose `title` / `content` / `theme` keys may
each be absent. -/
inductive JsonCandidate where
  | notDict
  | fields (title content theme : Option String)
deriving DecidableEq, Repr

/-- A snippet that survived validation: the dicts `_parse_response` puts
into `validated_snippets` (no phase — the caller hardcodes it). -/
structure VSnippet where
  title : List Char
  content : List Char
  theme : List Char
deriving DecidableEq, Repr

/-- The per-candidate body of the validation loop in
`SnippetService._parse_response` (lines 694-717). -/
def validateOne : JsonCandidate → Option VSnippet
  | .notDict => none
  | .fields t c th =>
    let title := pyStrip (t.getD "").toList
    let content := pyStrip (c.getD "").toList
    let theme := (th.getD "growth").toList.map Char.toLower
    if title = [] ∨ content = [] then none
    else
      let content2 :=
        if 300 < content.length then content.take 297 ++ "...".toList
        else content
      some { title := title, content := content2, theme := theme }

/-- The whole validation loop: validated candidates in order. -/
def validate_snippets (snippets : List JsonCandidate) : List VSnippet :=
  snippets.filterMap validateOne

/-- A row of the `snippets` table as the service reads and writes it
(columns from the model, the domain entity and the alembic migrations). -/
structure SnippetRec where
  id : Nat
  story_id : Nat
  user_id : Nat
  title : List Char
  content : List Char
  theme : List Char
  phase : Option String
  is_locked : Bool
  is_active : Bool
  display_order : Nat
deriving DecidableEq, Repr

/-- A row of the `stories` table (only the columns `generate_snippets`
reads). -/
structure StoryRow where
  id : Nat
  user_id : Nat
deriving DecidableEq, Repr

/-- A row of the `messages` table as `get_story_messages` returns it. -/
structure MsgRow where
  story_id : Nat
  role : String
  content : String
  phase_context : Option String
deriving DecidableEq, Repr

/-- The database state the snippet service touches.  Lists are kept in
`created_at` / insertion order; `next_id` models the autoincrement key. -/
structure Db where
  stories : List StoryRow
  messages : List MsgRow
  snippets : List SnippetRec
  next_id : Nat
deriving DecidableEq, Repr

/-- `SnippetService.get_story_messages`. -/
def get_story_messages (story_id : Nat) (db : Db) : List MsgRow :=
  db.messages.filter (fun m => m.story_id = story_id)

/-- `SnippetService.delete_snippets`: soft-delete (set `is_active=False`)
every unlocked, active snippet of the story; return the new table state and
the number of rows hit. -/
def delete_snippets (story_id : Nat) (db : Db) : Db × Nat :=
  let hit := fun (s : SnippetRec) =>
    s.story_id = story_id ∧ s.is_locked = false ∧ s.is_active = true
  ({ db with snippets :=
      db.snippets.map (fun s => if hit s then { s with is_active := false } else s) },
   (db.snippets.filter (fun s => hit s)).length)

/-- `SnippetService.get_locked_snippets`. -/
def get_locked_snippets (story_id : Nat) (db : Db) : List SnippetRec :=
  db.snippets.filter
    (fun s => s.story_id = story_id ∧ s.is_locked = true ∧ s.is_active = true)

/-- `SnippetService._save_snippets`: append one row per validated snippet,
with `display_order = start_display_order + index` and the hardcoded
phase; new rows get the column defaults `is_locked=False`, `is_active=True`
and autoincrement ids.  Returns the new state and the created rows. -/
def save_snippets (story_id user_id : Nat) (snippets : List VSnippet)
    (hardcoded_phase : Option String) (start_display_order : Nat)
    (db : Db) : Db × List SnippetRec :=
  let created := (List.range snippets.length).zip snippets |>.map
    (fun p =>
      { id := db.next_id + p.1
        story_id := story_id
        user_id := user_id
        title := p.2.title
        content := p.2.content
        theme := p.2.theme
        phase := hardcoded_phase
        is_locked := false
        is_active := true
        display_order := start_display_order + p.1 : SnippetRec })
  ({ db with snippets := db.snippets ++ created,
             next_id := db.next_id + snippets.length },
   created)

/-- `SnippetService.VALID_SNIPPET_PHASES`. -/
def VALID_SNIPPET_PHASES : List String :=
  ["FAMILY_HISTORY", "CHILDHOOD", "ADOLESCENCE", "EARLY_ADULTHOOD",
   "MIDLIFE", "PRESENT"]

/-- `SnippetService.MIN_MESSAGES_PER_CHAPTER`. -/
def MIN_MESSAGES_PER_CHAPTER : Nat := 2

/-- The result of `_generate_snippets_for_phase` (its model cascade and
JSON parsing are folded into the phase oracle, see `PhaseOracle`). -/
structure PhaseGenResult where
  success : Bool
  snippets : List VSnippet
  model : Option String
  error : Option String
deriving DecidableEq, Repr

/-- Abstraction of `_generate_snippets_for_phase`: given the phase, the
phase's messages and the locked snippets echoed into the prompt, produce
the parsed-and-validated result.  Quantifying theorems over the oracle
makes them hold for every provider behaviour. -/
def PhaseOracle : Type :=
  String → List MsgRow → List SnippetRec → PhaseGenResult

/-- Accumulator of the per-chapter loop in
`SnippetService.generate_snippets`. -/
structure GenAcc where
  db : Db
  saved : List SnippetRec
  display_order : Nat
  errors : List String
  last_model : Option String
deriving DecidableEq, Repr

/-- One iteration of `for phase in self.VALID_SNIPPET_PHASES`, for a story
whose grouped messages are `grouped phase` (the dict lookup
`messages_by_phase[phase]`, empty meaning the key is absent). -/
def processPhase (oracle : PhaseOracle) (story_id user_id : Nat)
    (grouped : String → List MsgRow) (locked_snippets : List SnippetRec)
    (acc : GenAcc) (phase : String) : GenAcc :=
  let phase_messages := grouped phase
  if phase_messages = [] then acc
  else if (phase_messages.filter (fun m => m.role = "user")).length
          < MIN_MESSAGES_PER_CHAPTER then acc
  else
    let result := oracle phase phase_messages locked_snippets
    if result.success = true ∧ result.snippets ≠ [] then
      let sv := save_snippets story_id user_id result.snippets (some phase)
        acc.display_order acc.db
      { db := sv.1
        saved := acc.saved ++ sv.2
        display_order := acc.display_order + sv.2.length
        errors := acc.errors
        last_model := result.model }
    else
      { acc with errors :=
          acc.errors ++ [phase ++ ": " ++ (result.error.getD "None")] }

/-- The dict returned by `SnippetService.generate_snippets`. -/
structure GenResponse where
  success : Bool
  snippets : List SnippetRec
  count : Nat
  model : Option String
  error : Option String
deriving DecidableEq, Repr

/-- `_group_messages_by_phase`, read off as the per-key lists of the dict:
messages whose `phase_context` is the given (valid) phase. -/
def groupedMessages (messages : List MsgRow) (phase : String) : List MsgRow :=
  messages.filter (fun m => m.phase_context = some phase)

/-- `True` when `_group_messages_by_phase` returns a non-empty dict: some
message carries a valid phase context. -/
def hasGroupedMessages (messages : List MsgRow) : Bool :=
  messages.any (fun m =>
    match m.phase_context with
    | some p => p ∈ VALID_SNIPPET_PHASES
    | none => false)

/-- `SnippetService.generate_snippets` as a state transformer on the
database: story lookup, message fetch and grouping, capture of locked
snippets, soft-delete of unlocked ones, then the per-chapter
generate-and-save loop. -/
def generate_snippets (oracle : PhaseOracle) (story_id : Nat) (db : Db) :
    Db × GenResponse :=
  match db.stories.find? (fun st => st.id = story_id) with
  | none =>
      (db, { success := false, snippets := [], count := 0, model := none,
             error := some ("Story with ID " ++ toString story_id ++ " not found") })
  | some story =>
    let user_id := story.user_id
    let messages := get_story_messages story_id db
    if messages = [] then
      (db, { success := false, snippets := [], count := 0, model := none,
             error := some "No messages found for this story" })
    else if hasGroupedMessages messages = false then
      (db, { success := false, snippets := [], count := 0, model := none,
             error := some "No messages with valid phase context found" })
    else
      let locked_snippets := get_locked_snippets story_id db
      let db1 := (delete_snippets story_id db).1
      let acc0 : GenAcc :=
        { db := db1, saved := [], display_order := 0, errors := [],
          last_model := none }
      let acc := VALID_SNIPPET_PHASES.foldl
        (processPhase oracle story_id user_id (groupedMessages messages)
          locked_snippets) acc0
      (acc.db,
       if acc.saved ≠ [] then
         { success := true, snippets := acc.saved, count := acc.saved.length,
           model := acc.last_model,
           error := if acc.errors = [] then none
                    else some ("Partial errors: " ++ String.intercalate "; " acc.errors) }
       else
         { success := false, snippets := [], count := 0, model := none,
           error := if acc.errors = []
                    then some "No snippets generated"
                    else some ("Failed to generate any snippets. Errors: "
                               ++ String.intercalate "; " acc.errors) })

end SnipSvc

/-! ## Theorems -/

open StoryEnt AiFb SnipSvc

/-- Every story's phase index stays below the length of its available
phase list. -/
theorem phase_index_lt (s : Story) :
    phase_index s < (available_phases s).length := by
  rcases s with ⟨cp, ar, st⟩
  cases ar with
  | none => cases cp <;> cases st <;> decide
  | some a => cases a <;> cases cp <;> cases st <;> decide

/-- C7: `can_advance_to` returns `false` exactly when the target is not in
the available phase list, or the target's index is strictly below the
current phase's index, or the target's index exceeds 1 while the age range
is unset; in every other case it returns `true`. -/
theorem can_advance_to_rules (s : Story) (t : Phase) :
    can_advance_to s t = true ↔
      (t ∈ available_phases s ∧
       phase_index s ≤ (available_phases s).indexOf t ∧
       ¬(1 < (available_phases s).indexOf t ∧ s.age_range = none)) := by
  rcases s with ⟨cp, ar, st⟩
  cases ar with
  | none => cases cp <;> cases t <;> cases st <;> decide
  | some a => cases a <;> cases cp <;> cases t <;> cases st <;> decide

/-- C8 counterexample: with the age range unset and the current phase
AGE_SELECTION — not the terminal phase, and not the last index — the code
raises `Cannot advance` instead of moving one step forward. -/
theorem advance_phase_nonterminal_error :
    advance_phase ⟨Phase.AGE_SELECTION, none, StoryStatus.DRAFT⟩
        = .error "Cannot advance" ∧
    (⟨Phase.AGE_SELECTION, none, StoryStatus.DRAFT⟩ : Story).current_phase
        ≠ Phase.SYNTHESIS ∧
    phase_index ⟨Phase.AGE_SELECTION, none, StoryStatus.DRAFT⟩
        < (available_phases ⟨Phase.AGE_SELECTION, none, StoryStatus.DRAFT⟩).length - 1 := by
  decide

/-- C8 (amended): `advance_phase` either moves to the phase at index
(current index + 1) of the available list — whence the phase index
increases by exactly one and the age range is unchanged — or raises; it
raises exactly when the current index is already the last one, or when the
step would pass AGE_SELECTION (current index ≥ 1) while the age range is
unset.  Consequently a sequence of calls (a raise leaving the state
unchanged) has a non-decreasing phase index never exceeding
`len(available_phases) - 1`. -/
theorem advance_phase_amended_rules :
    (∀ s s1 : Story, advance_phase s = .ok s1 →
       s1.current_phase
           = (available_phases s).getD (phase_index s + 1) Phase.GREETING ∧
       phase_index s1 = phase_index s + 1 ∧
       s1.age_range = s.age_range) ∧
    (∀ s : Story, (advance_phase s).isOk = false ↔
       ((available_phases s).length - 1 ≤ phase_index s ∨
        (1 ≤ phase_index s ∧ s.age_range = none))) ∧
    (∀ s : Story, phase_index s ≤ phase_index (advance_step s) ∧
       phase_index s ≤ (available_phases s).length - 1) ∧
    (∀ (s : Story) (n : Nat),
       phase_index (advance_step^[n] s) ≤ phase_index (advance_step^[n + 1] s) ∧
       phase_index (advance_step^[n] s)
           ≤ (available_phases (advance_step^[n] s)).length - 1) := by
  have step : ∀ s : Story, phase_index s ≤ phase_index (advance_step s) := by
    intro s
    rcases s with ⟨cp, ar, st⟩
    cases ar with
    | none => cases cp <;> cases st <;> decide
    | some a => cases a <;> cases cp <;> cases st <;> decide
  have bound : ∀ s : Story, phase_index s ≤ (available_phases s).length - 1 := by
    intro s
    have h := phase_index_lt s
    omega
  refine ⟨?_, ?_, fun s => ⟨step s, bound s⟩, ?_⟩
  · intro s s1 h
    rcases s with ⟨cp, ar, st⟩
    cases ar with
    | none =>
        cases cp <;> cases st <;>
          first
          | exact Except.noConfusion h
          | (injection h with h1; subst h1; decide)
    | some a =>
        cases a <;> cases cp <;> cases st <;>
          first
          | exact Except.noConfusion h
          | (injection h with h1; subst h1; decide)
  · intro s
    rcases s with ⟨cp, ar, st⟩
    cases ar with
    | none => cases cp <;> cases st <;> decide
    | some a => cases a <;> cases cp <;> cases st <;> decide
  · intro s n
    have h1 := step (advance_step^[n] s)
    have h2 := bound (advance_step^[n] s)
    rw [Function.iterate_succ_apply']
    exact ⟨h1, h2⟩

/-- Every message emitted by the filtering loop has marker-free content:
marker messages are consumed to update the tracked phase, never output. -/
theorem filterLoop_output_no_marker (norm : List String) :
    ∀ (msgs : List ChatMsg) (cur : Option String),
      ∀ m ∈ filterLoop norm cur msgs, searchMarker m.content.toList = none := by
  intro msgs
  induction msgs with
  | nil => intro cur m hm; simp [filterLoop] at hm
  | cons x xs ih =>
    intro cur m hm
    rcases hx : searchMarker x.content.toList with _ | g
    · rcases cur with _ | p
      · simp only [filterLoop, hx] at hm
        exact ih none m hm
      · simp only [filterLoop, hx] at hm
        by_cases hp : p ≠ "" ∧ p ∈ norm
        · rw [if_pos hp] at hm
          rcases List.mem_cons.mp hm with h1 | h1
          · subst h1; exact hx
          · exact ih (some p) m h1
        · rw [if_neg hp] at hm
          exact ih (some p) m hm
    · simp only [filterLoop, hx] at hm
      exact ih _ m hm

/-- A marker-free prefix contributes nothing while no phase is tracked:
the loop result over `pre ++ rest` equals the result over `rest` alone. -/
theorem filterLoop_skip_marker_free (norm : List String) :
    ∀ (pre rest : List ChatMsg),
      (∀ m ∈ pre, searchMarker m.content.toList = none) →
      filterLoop norm none (pre ++ rest) = filterLoop norm none rest := by
  intro pre
  induction pre with
  | nil => intro rest _; rfl
  | cons x xs ih =>
    intro rest h
    have hx := h x (List.mem_cons_self x xs)
    simp only [List.cons_append, filterLoop, hx]
    exact ih rest (fun m hm => h m (List.mem_cons_of_mem x hm))

/-- On a fully marker-free message list the loop outputs nothing. -/
theorem filterLoop_marker_free_empty (norm : List String) (msgs : List ChatMsg)
    (h : ∀ m ∈ msgs, searchMarker m.content.toList = none) :
    filterLoop norm none msgs = [] := by
  have := filterLoop_skip_marker_free norm msgs [] h
  simpa using this

/-- C9: the filter fails fast on a `None` messages argument, while an empty
message list, an empty phase selection, or input that is entirely filtered
out yields an empty (or at least error-free) result. -/
theorem filter_input_contract :
    (∀ phases, filter_messages_by_phases none phases
        = .error "messages cannot be None") ∧
    (∀ phases, filter_messages_by_phases (some []) phases = .ok []) ∧
    (∀ msgs, filter_messages_by_phases (some msgs) [] = .ok []) ∧
    (∀ msgs phases, ∃ l, filter_messages_by_phases (some msgs) phases = .ok l) := by
  refine ⟨fun phases => rfl, fun phases => rfl, ?_, ?_⟩
  · intro msgs
    unfold filter_messages_by_phases
    by_cases h1 : msgs = [] <;> simp [h1]
  · intro msgs phases
    unfold filter_messages_by_phases
    by_cases h1 : msgs = [] <;> by_cases h2 : phases = [] <;> simp [h1, h2]

/-- A transcript whose messages are all marker-free filters to the empty
list, whatever phases are selected. -/
theorem filter_of_marker_free (msgs : List ChatMsg) (phases : List String)
    (h : ∀ m ∈ msgs, searchMarker m.content.toList = none) :
    filter_messages_by_phases (some msgs) phases = .ok [] := by
  unfold filter_messages_by_phases
  by_cases h1 : msgs = []
  · simp [h1]
  · by_cases h2 : phases = []
    · simp [h1, h2]
    · simp only [if_neg h1, if_neg h2]
      rw [filterLoop_marker_free_empty _ _ h]

/-- C10: messages that precede the first phase-transition marker never
reach the output — a marker-free prefix can be dropped without changing
the result — and a transcript with no markers at all always filters to the
empty list, whatever phases are selected. -/
theorem filter_pre_marker_rules :
    (∀ (pre rest : List ChatMsg) (phases : List String),
       (∀ m ∈ pre, searchMarker m.content.toList = none) →
       filter_messages_by_phases (some (pre ++ rest)) phases
         = filter_messages_by_phases (some rest) phases) ∧
    (∀ (msgs : List ChatMsg) (phases : List String),
       (∀ m ∈ msgs, searchMarker m.content.toList = none) →
       filter_messages_by_phases (some msgs) phases = .ok []) := by
  refine ⟨?_, filter_of_marker_free⟩
  intro pre rest phases h
  by_cases hpr : pre ++ rest = []
  · rcases List.append_eq_nil.mp hpr with ⟨h1, h2⟩
    subst h1; subst h2; rfl
  · by_cases h2 : phases = []
    · unfold filter_messages_by_phases
      by_cases hr : rest = [] <;> simp [hpr, h2, hr]
    · by_cases hr : rest = []
      · subst hr
        rw [List.append_nil]
        exact filter_of_marker_free pre phases h
      · unfold filter_messages_by_phases
        simp only [if_neg hpr, if_neg h2, if_neg hr]
        rw [filterLoop_skip_marker_free _ pre rest h]

/-- C10 witness: a single marker-free message filters to the empty list,
and prepending it before a marked transcript does not change the result. -/
theorem filter_pre_marker_rules_witness :
    filter_messages_by_phases (some [⟨"user", "hello"⟩]) ["CHILDHOOD"] = .ok [] ∧
    filter_messages_by_phases
        (some ([⟨"user", "hello"⟩] ++
               [⟨"user", "[Moving to next phase: CHILDHOOD]"⟩,
                ⟨"user", "I played soccer."⟩])) ["CHILDHOOD"]
      = filter_messages_by_phases
          (some [⟨"user", "[Moving to next phase: CHILDHOOD]"⟩,
                 ⟨"user", "I played soccer."⟩]) ["CHILDHOOD"] :=
  ⟨filter_pre_marker_rules.2 _ _ (by decide),
   filter_pre_marker_rules.1 _ _ _ (by decide)⟩

/-- C4 counterexample: filtering a marked CHILDHOOD transcript once keeps
the childhood message, but filtering that output again yields the empty
list (the marker was consumed by the first pass), so the double application
differs from the single one. -/
theorem filter_idempotence_counterexample :
    filter_messages_by_phases
        (some [⟨"user", "[Moving to next phase: CHILDHOOD]"⟩,
               ⟨"user", "I played soccer."⟩]) ["CHILDHOOD"]
      = .ok [⟨"user", "I played soccer."⟩] ∧
    filter_messages_by_phases
        (some [⟨"user", "I played soccer."⟩]) ["CHILDHOOD"]
      ≠ .ok [⟨"user", "I played soccer."⟩] := by
  decide

/-- C4 (amended): the filter is not idempotent; instead, a second
application always returns the empty list, because the first application
strips every transition marker.  Idempotence holds exactly when the first
application is already empty. -/
theorem filter_twice_empty :
    ∀ (msgs : List ChatMsg) (phases : List String) (l : List ChatMsg),
      filter_messages_by_phases (some msgs) phases = .ok l →
      filter_messages_by_phases (some l) phases = .ok [] := by
  intro msgs phases l h
  by_cases h1 : msgs = []
  · simp [filter_messages_by_phases, h1] at h
    simp [filter_messages_by_phases, ← h]
  · by_cases h2 : phases = []
    · simp [filter_messages_by_phases, h1, h2] at h
      simp [filter_messages_by_phases, h2, ← h]
    · simp only [filter_messages_by_phases, if_neg h1, if_neg h2,
        Except.ok.injEq] at h
      subst h
      exact filter_of_marker_free _ _
        (filterLoop_output_no_marker _ _ none)

/-- C4 witness: refiltering the one-message output of the counterexample
transcript yields the empty list. -/
theorem filter_twice_empty_witness :
    filter_messages_by_phases (some [⟨"user", "I played soccer."⟩]) ["CHILDHOOD"]
      = .ok [] :=
  filter_twice_empty
    [⟨"user", "[Moving to next phase: CHILDHOOD]"⟩, ⟨"user", "I played soccer."⟩]
    ["CHILDHOOD"] [⟨"user", "I played soccer."⟩] (by decide)

/-- C2: when the first model fails with a non-rate-limit error, the cascade
aborts at once: `success=false`, `attempts=1`, the error surfaced verbatim
(wrapped as `Error with <model>: <message>`), and — witnessed by the
invocation trace `[A]` — no later model of the list is ever invoked. -/
theorem run_gemini_fallback_fail_fast
    (invoke : String → GenOutcome) (messages : List ChatMsg)
    (A e : String) (rest : List String)
    (hm : messages ≠ [])
    (hA : invoke A = .err e)
    (hRL : isRateLimitError e = false) :
    run_gemini_fallback invoke messages (some (A :: rest))
      = .ok ({ success := false, content := "", model := none, attempts := 1,
               error := some ("Error with " ++ A ++ ": " ++ e) }, [A]) := by
  simp [run_gemini_fallback, run_cascade, hm, hA, hRL]

/-- C2 witness: a fatal `invalid request` on the first of two models stops
the cascade after one attempt. -/
theorem run_gemini_fallback_fail_fast_witness :
    run_gemini_fallback (fun _ => .err "invalid request")
        [⟨"user", "hi"⟩] (some ["model-a", "model-b"])
      = .ok ({ success := false, content := "", model := none, attempts := 1,
               error := some ("Error with " ++ "model-a" ++ ": " ++ "invalid request") },
             ["model-a"]) :=
  run_gemini_fallback_fail_fast _ _ "model-a" "invalid request" ["model-b"]
    (by decide) rfl (by decide)

/-- When every model in the remaining cascade fails with a rate-limit
error, the loop walks the whole list and reports exhaustion. -/
theorem run_cascade_all_rate_limited (invoke : String → GenOutcome) :
    ∀ (models : List String) (idx total : Nat),
      models ≠ [] → idx + models.length = total →
      (∀ m ∈ models, ∃ e, invoke m = .err e ∧ isRateLimitError e = true) →
      run_cascade invoke total models idx
        = ({ success := false, content := "", model := none, attempts := total,
             error := some ("All " ++ toString total ++ " models exhausted rate limits") },
           models) := by
  intro models
  induction models with
  | nil => intro idx total hne; exact absurd rfl hne
  | cons m rest ih =>
    intro idx total _ hlen hall
    obtain ⟨e, he, hrl⟩ := hall m (List.mem_cons_self m rest)
    rcases rest with _ | ⟨r, rs⟩
    · have hidx : idx = total - 1 := by
        simp at hlen
        omega
      simp [run_cascade, he, hrl, hidx]
    · have hidx : idx ≠ total - 1 := by
        simp [List.length_cons] at hlen
        omega
      have htail := ih (idx + 1) total (by simp)
        (by simp [List.length_cons] at hlen ⊢; omega)
        (fun x hx => hall x (List.mem_cons_of_mem m hx))
      rw [run_cascade.eq_def]
      simp [he, hrl, hidx, htail]

/-- C3: the cascade tries the models strictly in order.  A first-model
success returns at once with `attempts=1`; with `[A,B,C]` where A and B
rate-limit and C succeeds, it returns success with `attempts=3`,
`model=C`, having invoked exactly `[A,B,C]`; and when every model
rate-limits it returns failure with `attempts = len(models)` and the
aggregate all-models-exhausted error. -/
theorem run_gemini_fallback_cascade_order :
    (∀ (invoke : String → GenOutcome) (messages : List ChatMsg)
       (m t : String) (rest : List String),
       messages ≠ [] → invoke m = .ok t →
       run_gemini_fallback invoke messages (some (m :: rest))
         = .ok ({ success := true, content := t, model := some m,
                  attempts := 1, error := none }, [m])) ∧
    (∀ (invoke : String → GenOutcome) (messages : List ChatMsg)
       (A B C ea eb t : String),
       messages ≠ [] →
       invoke A = .err ea → isRateLimitError ea = true →
       invoke B = .err eb → isRateLimitError eb = true →
       invoke C = .ok t →
       run_gemini_fallback invoke messages (some [A, B, C])
         = .ok ({ success := true, content := t, model := some C,
                  attempts := 3, error := none }, [A, B, C])) ∧
    (∀ (invoke : String → GenOutcome) (messages : List ChatMsg)
       (models : List String),
       messages ≠ [] → models ≠ [] →
       (∀ m ∈ models, ∃ e, invoke m = .err e ∧ isRateLimitError e = true) →
       run_gemini_fallback invoke messages (some models)
         = .ok ({ success := false, content := "", model := none,
                  attempts := models.length,
                  error := some ("All " ++ toString models.length
                                 ++ " models exhausted rate limits") },
                models)) := by
  refine ⟨?_, ?_, ?_⟩
  · intro invoke messages m t rest hm hok
    simp [run_gemini_fallback, run_cascade, hm, hok]
  · intro invoke messages A B C ea eb t hm hA hrlA hB hrlB hC
    simp [run_gemini_fallback, run_cascade, hm, hA, hrlA, hB, hrlB, hC]
  · intro invoke messages models hm hne hall
    have h := run_cascade_all_rate_limited invoke models 0 models.length hne
      (by omega) hall
    simp [run_gemini_fallback, hm, hne, h]

/-- C3 witness: concrete cascades exercising all three parts — immediate
first success, rate-limits then success on the third model, and full
exhaustion of a two-model list. -/
theorem run_gemini_fallback_cascade_order_witness :
    run_gemini_fallback (fun _ => .ok "text") [⟨"user", "hi"⟩] (some ["ma", "mb"])
      = .ok ({ success := true, content := "text", model := some "ma",
               attempts := 1, error := none }, ["ma"]) ∧
    run_gemini_fallback (fun m => if m = "mc" then .ok "text" else .err "429 quota")
        [⟨"user", "hi"⟩] (some ["ma", "mb", "mc"])
      = .ok ({ success := true, content := "text", model := some "mc",
               attempts := 3, error := none }, ["ma", "mb", "mc"]) ∧
    run_gemini_fallback (fun _ => .err "rate limit hit") [⟨"user", "hi"⟩]
        (some ["ma", "mb"])
      = .ok ({ success := false, content := "", model := none, attempts := 2,
               error := some ("All " ++ toString 2
                              ++ " models exhausted rate limits") }, ["ma", "mb"]) :=
  ⟨run_gemini_fallback_cascade_order.1 _ _ "ma" "text" ["mb"] (by decide) rfl,
   run_gemini_fallback_cascade_order.2.1 _ _ "ma" "mb" "mc" "429 quota" "429 quota"
     "text" (by decide) (by decide) (by decide) (by decide) (by decide) (by decide),
   run_gemini_fallback_cascade_order.2.2 _ _ ["ma", "mb"] (by decide) (by decide)
     (fun m _ => ⟨"rate limit hit", rfl, by decide⟩)⟩

/-- C8 witness: advancing from GREETING with no age set moves one step to
AGE_SELECTION, with the phase index going from 0 to 1. -/
theorem advance_phase_amended_rules_witness :
    (⟨Phase.AGE_SELECTION, none, StoryStatus.DRAFT⟩ : Story).current_phase
        = (available_phases ⟨Phase.GREETING, none, StoryStatus.DRAFT⟩).getD
            (phase_index ⟨Phase.GREETING, none, StoryStatus.DRAFT⟩ + 1)
            Phase.GREETING ∧
    phase_index (⟨Phase.AGE_SELECTION, none, StoryStatus.DRAFT⟩ : Story)
        = phase_index ⟨Phase.GREETING, none, StoryStatus.DRAFT⟩ + 1 ∧
    (⟨Phase.AGE_SELECTION, none, StoryStatus.DRAFT⟩ : Story).age_range
        = (⟨Phase.GREETING, none, StoryStatus.DRAFT⟩ : Story).age_range :=
  advance_phase_amended_rules.1
    ⟨Phase.GREETING, none, StoryStatus.DRAFT⟩
    ⟨Phase.AGE_SELECTION, none, StoryStatus.DRAFT⟩
    (by decide)


set_option maxRecDepth 8000 in
/-- C5 counterexample: a candidate with a 201-character title passes the
curation-result validation with the title kept at 201 characters — no
truncation to 200 happens. -/
theorem validate_title_not_truncated :
    validate_snippets
        [JsonCandidate.fields (some (String.mk (List.replicate 201 'a')))
          (some "x") none]
      = [{ title := List.replicate 201 'a', content := "x".toList,
           theme := "growth".toList }] ∧
    200 < (List.replicate 201 'a').length := by
  exact ⟨rfl, by simp⟩

/-- C5 (amended): every snippet accepted by the curation-result validation
has a non-empty title and content; the content is at most 300 characters
and, when it was truncated, it is exactly 300 characters ending in `...`;
an absent theme defaults to `growth`.  The title is only stripped of
surrounding whitespace, never truncated to 200 characters. -/
theorem validate_snippets_bounds :
    (∀ (cands : List JsonCandidate) (v : VSnippet),
       v ∈ validate_snippets cands →
       v.title ≠ [] ∧ v.content ≠ [] ∧ v.content.length ≤ 300) ∧
    (∀ (t c th : Option String) (v : VSnippet),
       validateOne (JsonCandidate.fields t c th) = some v →
       (300 < (pyStrip (c.getD "").toList).length →
          v.content.length = 300 ∧ "...".toList <:+ v.content) ∧
       (th = none → v.theme = "growth".toList) ∧
       v.title = pyStrip (t.getD "").toList) := by
  have hthree : ("...".toList).length = 3 := rfl
  have hone : ∀ (t c th : Option String) (v : VSnippet),
      validateOne (JsonCandidate.fields t c th) = some v →
      v.title = pyStrip (t.getD "").toList ∧
      v.title ≠ [] ∧ v.content ≠ [] ∧ v.content.length ≤ 300 ∧
      (300 < (pyStrip (c.getD "").toList).length →
        v.content.length = 300 ∧ "...".toList <:+ v.content) ∧
      (th = none → v.theme = "growth".toList) := by
    intro t c th v h
    unfold validateOne at h
    dsimp only at h
    split at h
    · exact Option.noConfusion h
    · next hcond =>
      push_neg at hcond
      obtain ⟨ht, hc⟩ := hcond
      injection h with h
      subst h
      refine ⟨rfl, ht, ?_, ?_, ?_, ?_⟩
      · dsimp only
        split
        · simp
        · exact hc
      · dsimp only
        split
        · simp only [List.length_append, List.length_take, hthree]
          omega
        · next hno =>
          omega
      · intro hgt
        dsimp only
        constructor
        · dsimp only
          split
          · simp only [List.length_append, List.length_take, hthree]
            omega
          · next hno => exact absurd hgt hno
        · dsimp only
          split
          · exact List.suffix_append _ _
          · next hno => exact absurd hgt hno
      · intro hth
        subst hth
        dsimp only
        decide
  refine ⟨?_, ?_⟩
  · intro cands v hv
    obtain ⟨cand, _, hc⟩ := List.mem_filterMap.mp hv
    rcases cand with _ | ⟨t, c, th⟩
    · exact absurd hc (by simp [validateOne])
    · obtain ⟨_, h1, h2, h3, _, _⟩ := hone t c th v hc
      exact ⟨h1, h2, h3⟩
  · intro t c th v h
    obtain ⟨h0, _, _, _, h4, h5⟩ := hone t c th v h
    exact ⟨h4, h5, h0⟩

/-- C5 witness: a small well-formed candidate is validated with the stated
bounds; its absent theme is defaulted. -/
theorem validate_snippets_bounds_witness :
    ((⟨"T".toList, "ok".toList, "growth".toList⟩ : VSnippet).title ≠ [] ∧
     (⟨"T".toList, "ok".toList, "growth".toList⟩ : VSnippet).content ≠ [] ∧
     (⟨"T".toList, "ok".toList, "growth".toList⟩ : VSnippet).content.length ≤ 300) ∧
    ((300 < (pyStrip ((some "ok" : Option String).getD "").toList).length →
       (⟨"T".toList, "ok".toList, "growth".toList⟩ : VSnippet).content.length = 300 ∧
       "...".toList <:+ (⟨"T".toList, "ok".toList, "growth".toList⟩ : VSnippet).content) ∧
     ((none : Option String) = none →
       (⟨"T".toList, "ok".toList, "growth".toList⟩ : VSnippet).theme = "growth".toList) ∧
     (⟨"T".toList, "ok".toList, "growth".toList⟩ : VSnippet).title
        = pyStrip ((some "T" : Option String).getD "").toList) :=
  ⟨validate_snippets_bounds.1 [JsonCandidate.fields (some "T") (some "ok") none]
     ⟨"T".toList, "ok".toList, "growth".toList⟩ (by decide),
   validate_snippets_bounds.2 (some "T") (some "ok") none
     ⟨"T".toList, "ok".toList, "growth".toList⟩ (by decide)⟩

/-- A fold preserves any invariant preserved by each step. -/
theorem foldl_preserve {α β : Type _} (step : β → α → β) (P : β → Prop)
    (hstep : ∀ b a, P b → P (step b a)) :
    ∀ (l : List α) (b : β), P b → P (l.foldl step b) := by
  intro l
  induction l with
  | nil => intro b hb; exact hb
  | cons a l ih => intro b hb; exact ih (step b a) (hstep b a hb)

/-- One per-chapter iteration only ever appends snippet rows: every row
present before it is still present after it. -/
theorem processPhase_mem (oracle : PhaseOracle) (sid uid : Nat)
    (grouped : String → List MsgRow) (locked : List SnippetRec)
    (acc : GenAcc) (phase : String)
    (s : SnippetRec) (hs : s ∈ acc.db.snippets) :
    s ∈ (processPhase oracle sid uid grouped locked acc phase).db.snippets := by
  unfold processPhase
  dsimp only
  split
  · exact hs
  split
  · exact hs
  split
  · exact List.mem_append_left _ hs
  · exact hs

/-- A locked snippet row survives a whole `generate_snippets` run
untouched: the soft-delete skips it and the loop only appends. -/
theorem generate_snippets_mem (oracle : PhaseOracle) (sid : Nat) (db : Db)
    (s : SnippetRec) (hs : s ∈ db.snippets) (hlock : s.is_locked = true) :
    s ∈ (generate_snippets oracle sid db).1.snippets := by
  unfold generate_snippets
  rcases hfind : db.stories.find? (fun st => st.id = sid) with _ | story <;>
    rw [hfind]
  · exact hs
  · dsimp only
    split
    · exact hs
    split
    · exact hs
    · have hfs : (if s.story_id = sid ∧ s.is_locked = false ∧ s.is_active = true
          then { s with is_active := false } else s) = s := by
        rw [if_neg]
        simp [hlock]
      have hbase : s ∈ (delete_snippets sid db).1.snippets := by
        have hm := List.mem_map_of_mem
          (fun r : SnippetRec =>
            if r.story_id = sid ∧ r.is_locked = false ∧ r.is_active = true
            then { r with is_active := false } else r) hs
        dsimp only at hm
        rw [hfs] at hm
        exact hm
      dsimp only
      exact foldl_preserve _ (fun acc => s ∈ acc.db.snippets)
        (fun b a hb => processPhase_mem oracle sid story.user_id
          (groupedMessages (get_story_messages sid db))
          (get_locked_snippets sid db) b a s hb)
        VALID_SNIPPET_PHASES
        { db := (delete_snippets sid db).1, saved := [], display_order := 0,
          errors := [], last_model := none } hbase

/-- C1: locked, active snippets are never removed by snippet regeneration —
the very same row (same id, title, content, still active) is in the table
after one `generate_snippets` run and after a second one — and the
pre-regeneration soft-delete flips `is_active` exactly on the unlocked,
active snippets of the story, leaving every other row unchanged. -/
theorem locked_snippets_never_removed :
    (∀ (oracle : PhaseOracle) (sid : Nat) (db : Db) (s : SnippetRec),
       s ∈ db.snippets → s.is_locked = true → s.is_active = true →
       s ∈ (generate_snippets oracle sid db).1.snippets) ∧
    (∀ (oracle oracle2 : PhaseOracle) (sid sid2 : Nat) (db : Db) (s : SnippetRec),
       s ∈ db.snippets → s.is_locked = true → s.is_active = true →
       s ∈ (generate_snippets oracle2 sid2
             (generate_snippets oracle sid db).1).1.snippets) ∧
    (∀ (sid : Nat) (db : Db) (r : SnippetRec), r ∈ db.snippets →
       (¬(r.story_id = sid ∧ r.is_locked = false ∧ r.is_active = true) →
          r ∈ (delete_snippets sid db).1.snippets) ∧
       ((r.story_id = sid ∧ r.is_locked = false ∧ r.is_active = true) →
          { r with is_active := false } ∈ (delete_snippets sid db).1.snippets)) := by
  refine ⟨fun oracle sid db s hs hl _ => generate_snippets_mem oracle sid db s hs hl,
         fun oracle oracle2 sid sid2 db s hs hl _ =>
           generate_snippets_mem oracle2 sid2 _ s
             (generate_snippets_mem oracle sid db s hs hl) hl,
         ?_⟩
  intro sid db r hr
  constructor
  · intro hnot
    have hm := List.mem_map_of_mem
      (fun x : SnippetRec =>
        if x.story_id = sid ∧ x.is_locked = false ∧ x.is_active = true
        then { x with is_active := false } else x) hr
    dsimp only at hm
    rw [if_neg hnot] at hm
    exact hm
  · intro hcond
    have hm := List.mem_map_of_mem
      (fun x : SnippetRec =>
        if x.story_id = sid ∧ x.is_locked = false ∧ x.is_active = true
        then { x with is_active := false } else x) hr
    dsimp only at hm
    rw [if_pos hcond] at hm
    exact hm

/-- C1 witness: a locked, active snippet with id 10 survives a concrete
regeneration run that saves a fresh snippet for the story. -/
theorem locked_snippets_never_removed_witness :
    (⟨10, 1, 7, "L".toList, "LC".toList, "t".toList, some "CHILDHOOD",
       true, true, 5⟩ : SnippetRec)
      ∈ (generate_snippets
          (fun _ _ _ =>
            ⟨true, [⟨"N".toList, "NC".toList, "g".toList⟩], some "m", none⟩)
          1
          ⟨[⟨1, 7⟩],
           [⟨1, "user", "m1", some "CHILDHOOD"⟩,
            ⟨1, "user", "m2", some "CHILDHOOD"⟩],
           [⟨10, 1, 7, "L".toList, "LC".toList, "t".toList, some "CHILDHOOD",
             true, true, 5⟩],
           11⟩).1.snippets :=
  locked_snippets_never_removed.1 _ 1 _ _ (by decide) (by decide) (by decide)

/-- One per-chapter iteration keeps the display-order invariant: the rows
saved so far sit after the soft-deleted base table and carry display orders
`0, 1, 2, ...`, with the running counter equal to their number. -/
theorem processPhase_order (oracle : PhaseOracle) (sid uid : Nat)
    (grouped : String → List MsgRow) (locked : List SnippetRec)
    (base : List SnippetRec) (acc : GenAcc) (phase : String)
    (h : acc.db.snippets = base ++ acc.saved ∧
         acc.saved.map SnippetRec.display_order = List.range acc.saved.length ∧
         acc.display_order = acc.saved.length) :
    (processPhase oracle sid uid grouped locked acc phase).db.snippets
        = base ++ (processPhase oracle sid uid grouped locked acc phase).saved ∧
    (processPhase oracle sid uid grouped locked acc phase).saved.map
        SnippetRec.display_order
      = List.range (processPhase oracle sid uid grouped locked acc phase).saved.length ∧
    (processPhase oracle sid uid grouped locked acc phase).display_order
      = (processPhase oracle sid uid grouped locked acc phase).saved.length := by
  obtain ⟨h1, h2, h3⟩ := h
  unfold processPhase
  dsimp only
  split
  · exact ⟨h1, h2, h3⟩
  split
  · exact ⟨h1, h2, h3⟩
  split
  · simp only [save_snippets]
    set snips := (oracle phase (grouped phase) locked).snippets with hsnips
    set created := (List.range snips.length).zip snips |>.map
      (fun p : Nat × VSnippet =>
        ({ id := acc.db.next_id + p.1
           story_id := sid
           user_id := uid
           title := p.2.title
           content := p.2.content
           theme := p.2.theme
           phase := some phase
           is_locked := false
           is_active := true
           display_order := acc.display_order + p.1 } : SnippetRec)) with hcreated
    have hclen : created.length = snips.length := by
      rw [hcreated]
      simp [List.length_zip]
    have hcmap : created.map SnippetRec.display_order
        = (List.range snips.length).map (fun i => acc.display_order + i) := by
      rw [hcreated, List.map_map]
      have hcomp : (SnippetRec.display_order ∘ fun p : Nat × VSnippet =>
          ({ id := acc.db.next_id + p.1, story_id := sid, user_id := uid,
             title := p.2.title, content := p.2.content, theme := p.2.theme,
             phase := some phase, is_locked := false, is_active := true,
             display_order := acc.display_order + p.1 } : SnippetRec))
          = (fun i => acc.display_order + i) ∘ Prod.fst := rfl
      rw [hcomp, ← List.map_map, List.map_fst_zip _ _ (by simp)]
    refine ⟨?_, ?_, ?_⟩
    · rw [h1, List.append_assoc]
    · rw [List.map_append, h2, hcmap, h3, List.length_append, hclen,
          List.range_add]
    · rw [List.length_append, hclen, h3]
  · exact ⟨h1, h2, h3⟩

/-- C6 counterexample: for a story holding one locked, active snippet at
`display_order = 5`, a regeneration run that saves one fresh snippet gives
it `display_order = 0` — the sequence restarts at zero instead of
continuing above the locked snippet's order. -/
theorem display_order_not_continued :
    ((generate_snippets
        (fun _ _ _ =>
          ⟨true, [⟨"N".toList, "NC".toList, "g".toList⟩], some "m", none⟩)
        1
        ⟨[⟨1, 7⟩],
         [⟨1, "user", "m1", some "CHILDHOOD"⟩,
          ⟨1, "user", "m2", some "CHILDHOOD"⟩],
         [⟨10, 1, 7, "L".toList, "LC".toList, "t".toList, some "CHILDHOOD",
           true, true, 5⟩],
         11⟩).1.snippets.map
        (fun r => (r.is_locked, r.display_order)))
      = [(true, 5), (false, 0)] := by
  decide

/-- C6 (amended): within one `generate_snippets` run the newly persisted
snippets receive the display orders `0, 1, 2, ...` in saving order — a
monotonically increasing sequence that always restarts at zero, regardless
of the display orders of the story's already-locked snippets. -/
theorem generate_snippets_display_order (oracle : PhaseOracle)
    (sid : Nat) (db : Db) :
    ((generate_snippets oracle sid db).1.snippets.drop db.snippets.length).map
        SnippetRec.display_order
      = List.range (((generate_snippets oracle sid db).1.snippets.drop
          db.snippets.length).length) := by
  unfold generate_snippets
  rcases hfind : db.stories.find? (fun st => st.id = sid) with _ | story <;>
    rw [hfind]
  · simp [List.drop_length]
  · dsimp only
    split
    · simp [List.drop_length]
    split
    · simp [List.drop_length]
    · dsimp only
      have hblen : (delete_snippets sid db).1.snippets.length
          = db.snippets.length := List.length_map _ _
      have hinv := foldl_preserve
        (processPhase oracle sid story.user_id
          (groupedMessages (get_story_messages sid db))
          (get_locked_snippets sid db))
        (fun acc => acc.db.snippets = (delete_snippets sid db).1.snippets ++ acc.saved ∧
          acc.saved.map SnippetRec.display_order = List.range acc.saved.length ∧
          acc.display_order = acc.saved.length)
        (fun b a hb => processPhase_order oracle sid story.user_id
          (groupedMessages (get_story_messages sid db))
          (get_locked_snippets sid db) _ b a hb)
        VALID_SNIPPET_PHASES
        { db := (delete_snippets sid db).1, saved := [], display_order := 0,
          errors := [], last_model := none }
        ⟨by simp, rfl, rfl⟩
      obtain ⟨h1, h2, _⟩ := hinv
      rw [h1, ← hblen, List.drop_left]
      exact h2
